import Mathlib

/-
  Verification of the PriceHawk price-tracking workflow.

  Shallow embedding of the Express backend (the `/api/products/:id/check`
  handler, the `checkAlerts` / `sendPriceAlert` functions, the alert-creation
  branch of `POST /api/products`, and the `scrapeFacebookListing` stub).
  The relational store is modelled as an explicit in-memory state (`DB`);
  fallible external effects (email delivery, the `UPDATE alerts` statement)
  are modelled by Boolean oracles in an environment record (`Env`), so that
  the try/catch structure of the JavaScript can be embedded as explicit
  control flow.
-/

namespace PriceHawk

/-- A row of the `products` table, with the fields the workflow reads or
writes: id, marketplace URL, current price, last-checked time, status. -/
structure Product where
  id : Nat
  marketplaceUrl : String
  currentPrice : Int
  lastChecked : Option Nat
  status : String
  deriving Repr, DecidableEq

/-- A row of the `price_history` table: owning product, price, time. -/
structure HistoryEntry where
  productId : Nat
  price : Int
  checkedAt : Nat
  deriving Repr, DecidableEq

/-- A row of the `alerts` table: id, owning product, owner email, target
price, active flag (`is_active`), firing time (`triggered_at`). -/
structure Alert where
  id : Nat
  productId : Nat
  userEmail : String
  targetPrice : Int
  isActive : Bool
  triggeredAt : Option Nat
  deriving Repr, DecidableEq

/-- The relational store: the three tables the workflow touches. -/
structure DB where
  products : List Product
  priceHistory : List HistoryEntry
  alerts : List Alert
  deriving Repr, DecidableEq

/-- The ambient effects of one workflow call: the clock (`NOW()`), whether
email delivery to a given alert id fails (`transporter.sendMail` throwing),
and whether the `UPDATE alerts ... WHERE id = $1` statement for a given
alert id fails (the store throwing). -/
structure Env where
  now : Nat
  notifyFails : Nat → Bool
  updateAlertFails : Nat → Bool

/-- Embeds `sendPriceAlert`: the whole body is wrapped in try/catch and a
delivery error is only logged, so the function never throws; the returned
Boolean records whether delivery succeeded. -/
def sendPriceAlert (env : Env) (alert : Alert) : Bool :=
  !(env.notifyFails alert.id)

/-- Embeds `UPDATE alerts SET triggered_at = NOW(), is_active = false
WHERE id = $1`. -/
def deactivateAlert (db : DB) (alertId : Nat) (now : Nat) : DB :=
  { db with alerts := db.alerts.map fun a =>
      if a.id = alertId then { a with isActive := false, triggeredAt := some now } else a }

/-- Embeds the `SELECT ... FROM alerts a JOIN products p ... WHERE
a.product_id = $1 AND a.is_active = true` query of `checkAlerts`. -/
def activeAlertsFor (db : DB) (productId : Nat) : List Alert :=
  db.alerts.filter fun a => a.productId == productId && a.isActive

/-- Embeds the `for (const alert of alerts.rows)` loop of `checkAlerts`.
For each alert with `currentPrice <= alert.target_price` it calls
`sendPriceAlert` (which never throws) and then runs the deactivating
UPDATE; if that UPDATE throws, the exception propagates to the single
try/catch wrapping the whole loop, so the loop stops there and the
partial state is what remains. The second component records, in order,
the alerts that were notified (id, delivery succeeded). -/
def checkAlertsLoop (env : Env) (currentPrice : Int) : List Alert → DB → DB × List (Nat × Bool)
  | [], db => (db, [])
  | a :: rest, db =>
    if currentPrice ≤ a.targetPrice then
      let delivered := sendPriceAlert env a
      if env.updateAlertFails a.id then
        (db, [(a.id, delivered)])
      else
        let r := checkAlertsLoop env currentPrice rest (deactivateAlert db a.id env.now)
        (r.1, (a.id, delivered) :: r.2)
    else
      checkAlertsLoop env currentPrice rest db

/-- The state change and internal notification trace of one `checkAlerts`
call: load the active alerts for the product, then run the loop. -/
def checkAlertsTrace (env : Env) (db : DB) (productId : Nat) (currentPrice : Int) :
    DB × List (Nat × Bool) :=
  checkAlertsLoop env currentPrice (activeAlertsFor db productId) db

/-- Embeds `checkAlerts(productId, currentPrice)`. Its JavaScript body has
no return statement, so the call resolves to undefined: the value handed
back to the caller is modelled as `Unit`; only the store state is an
observable effect. -/
def checkAlerts (env : Env) (db : DB) (productId : Nat) (currentPrice : Int) : DB × Unit :=
  ((checkAlertsTrace env db productId currentPrice).1, ())

/-- The data `scrapeFacebookListing` returns (the stub fills fixed text
fields and price 0; only the captured listing id varies). -/
structure ListingData where
  title : String
  price : Int
  listingId : String
  marketplaceUrl : String
  deriving Repr, DecidableEq

/-- Matches a pattern at the head of the character list, returning the
remainder on success. -/
def startsWithSeg : List Char → List Char → Option (List Char)
  | [], cs => some cs
  | _ :: _, [] => none
  | p :: ps, c :: cs => if p = c then startsWithSeg ps cs else none

/-- The literal segment of the regex `\/marketplace\/item\/(\d+)`. -/
def marketplaceItemSeg : List Char :=
  String.toList "/marketplace/item/"

/-- Embeds `url.match(/\/marketplace\/item\/(\d+)/)`: scan for the literal
segment followed by at least one digit and capture the digit run. -/
def findItemId : List Char → Option String
  | [] => none
  | c :: cs =>
    match startsWithSeg marketplaceItemSeg (c :: cs) with
    | some rest =>
      let ds := rest.takeWhile Char.isDigit
      if ds.isEmpty then findItemId cs else some (String.mk ds)
    | none => findItemId cs

/-- Embeds `scrapeFacebookListing`: the only validation is the URL match
(throwing `Invalid Facebook Marketplace URL` when it fails); on success it
returns the mock record with price 0. -/
def scrapeFacebookListing (url : String) : Except String ListingData :=
  match findItemId url.toList with
  | none => Except.error "Invalid Facebook Marketplace URL"
  | some lid =>
    Except.ok { title := "Product from Marketplace", price := 0,
                listingId := lid, marketplaceUrl := url }

/-- Embeds `SELECT * FROM products WHERE id = $1` (first matching row). -/
def findProduct (db : DB) (productId : Nat) : Option Product :=
  db.products.find? fun p => p.id == productId

/-- Embeds `UPDATE products SET current_price = $1, last_checked = NOW()
WHERE id = $2`. -/
def updateProductPrice (db : DB) (productId : Nat) (price : Int) (now : Nat) : DB :=
  { db with products := db.products.map fun p =>
      if p.id = productId then { p with currentPrice := price, lastChecked := some now } else p }

/-- Embeds `INSERT INTO price_history (product_id, price) VALUES ($1, $2)`. -/
def appendHistory (db : DB) (productId : Nat) (price : Int) (now : Nat) : DB :=
  { db with priceHistory := db.priceHistory ++ [⟨productId, price, now⟩] }

/-- Outcome of one price-observation ingest as seen by the HTTP handler:
404 when the product row is missing, otherwise success, with the branch
taken by the `price !== current_price` comparison recorded as `changed`. -/
inductive IngestResult where
  | notFound
  | ok (changed : Bool)
  deriving Repr, DecidableEq

/-- Embeds the body of `POST /api/products/:id/check` (and, identically,
one iteration of the hourly cron sweep): read the product row, update its
price and timestamp unconditionally, and only when the observed price
differs from the previously stored one append a history row and run
`checkAlerts`. -/
def ingest (env : Env) (db : DB) (productId : Nat) (observedPrice : Int) : DB × IngestResult :=
  match findProduct db productId with
  | none => (db, IngestResult.notFound)
  | some product =>
    let db1 := updateProductPrice db productId observedPrice env.now
    if observedPrice ≠ product.currentPrice then
      let db2 := appendHistory db1 productId observedPrice env.now
      ((checkAlerts env db2 productId observedPrice).1, IngestResult.ok true)
    else
      (db1, IngestResult.ok false)

/-- Iterates ingest of the same observed price, threading the store. -/
def ingestIter (env : Env) (db : DB) (productId : Nat) (observedPrice : Int) : Nat → DB
  | 0 => db
  | n + 1 => ingestIter env (ingest env db productId observedPrice).1 productId observedPrice n

/-- Modelled from the spec: the `alerts` table schema is not in the
sources (only the INSERT of `POST /api/products`, which names neither
`is_active` nor `triggered_at`); per the spec an alert is created active
with a null triggered timestamp, and the serial primary key hands out a
fresh id. -/
def freshAlertId (db : DB) : Nat :=
  (db.alerts.map Alert.id).foldr max 0 + 1

/-- Embeds the alert-creation branch of `POST /api/products`:
`INSERT INTO alerts (product_id, user_email, target_price, alert_type)`,
with the schema defaults of `freshAlertId` (see its comment). -/
def createAlert (db : DB) (productId : Nat) (userEmail : String) (targetPrice : Int) : DB :=
  { db with alerts := db.alerts ++
      [{ id := freshAlertId db, productId := productId, userEmail := userEmail,
         targetPrice := targetPrice, isActive := true, triggeredAt := none }] }

/-- The operations of the workflow that touch alert state: alert creation,
a manual-refresh ingest, and a bare alert evaluation. -/
inductive Op where
  | create (productId : Nat) (userEmail : String) (targetPrice : Int)
  | check (productId : Nat) (observedPrice : Int)
  | evalAlerts (productId : Nat) (currentPrice : Int)

/-- Applies one operation to the store. -/
def applyOp (env : Env) (db : DB) : Op → DB
  | Op.create pid em t => createAlert db pid em t
  | Op.check pid p => (ingest env db pid p).1
  | Op.evalAlerts pid p => (checkAlerts env db pid p).1

/-- Applies a sequence of operations to the store. -/
def applyOps (env : Env) (db : DB) : List Op → DB
  | [] => db
  | op :: ops => applyOps env (applyOp env db op) ops

/-- Deactivation touches only the alerts table. -/
theorem deactivateAlert_products (db : DB) (i n : Nat) :
    (deactivateAlert db i n).products = db.products := rfl

/-- Deactivation touches only the alerts table. -/
theorem deactivateAlert_priceHistory (db : DB) (i n : Nat) :
    (deactivateAlert db i n).priceHistory = db.priceHistory := rfl

/-- The evaluation loop never touches the products table. -/
theorem checkAlertsLoop_products (env : Env) (p : Int) (l : List Alert) (db : DB) :
    (checkAlertsLoop env p l db).1.products = db.products := by
  induction l generalizing db with
  | nil => rfl
  | cons a rest ih =>
    unfold checkAlertsLoop
    by_cases h : p ≤ a.targetPrice
    · simp only [if_pos h]
      by_cases hu : env.updateAlertFails a.id
      · simp [hu]
      · simp only [hu, if_neg, Bool.false_eq_true, not_false_iff]
        rw [ih, deactivateAlert_products]
    · simp only [if_neg h]
      exact ih db

/-- The evaluation loop never touches the price-history table. -/
theorem checkAlertsLoop_priceHistory (env : Env) (p : Int) (l : List Alert) (db : DB) :
    (checkAlertsLoop env p l db).1.priceHistory = db.priceHistory := by
  induction l generalizing db with
  | nil => rfl
  | cons a rest ih =>
    unfold checkAlertsLoop
    by_cases h : p ≤ a.targetPrice
    · simp only [if_pos h]
      by_cases hu : env.updateAlertFails a.id
      · simp [hu]
      · simp only [hu, if_neg, Bool.false_eq_true, not_false_iff]
        rw [ih, deactivateAlert_priceHistory]
    · simp only [if_neg h]
      exact ih db

/-- Deactivation preserves the list of alert ids. -/
theorem deactivateAlert_map_id (db : DB) (i n : Nat) :
    (deactivateAlert db i n).alerts.map Alert.id = db.alerts.map Alert.id := by
  unfold deactivateAlert
  simp only [List.map_map]
  apply List.map_congr_left
  intro a _
  by_cases h : a.id = i <;> simp [h]

/-- A record whose id is not the deactivated one is untouched. -/
theorem mem_deactivateAlert_of_id_ne {db : DB} {i n : Nat} {x : Alert}
    (hx : x ∈ db.alerts) (hne : x.id ≠ i) : x ∈ (deactivateAlert db i n).alerts := by
  unfold deactivateAlert
  simp only [List.mem_map]
  exact ⟨x, hx, by simp [hne]⟩

/-- The record carrying the deactivated id is replaced by its fired form. -/
theorem deactivated_mem {db : DB} {n : Nat} {x : Alert}
    (hx : x ∈ db.alerts) :
    { x with isActive := false, triggeredAt := some n } ∈ (deactivateAlert db x.id n).alerts := by
  unfold deactivateAlert
  simp only [List.mem_map]
  exact ⟨x, hx, by simp⟩

/-- Membership in the active-alert selection, unfolded. -/
theorem mem_activeAlertsFor {db : DB} {pid : Nat} {a : Alert} :
    a ∈ activeAlertsFor db pid ↔ a ∈ db.alerts ∧ a.productId = pid ∧ a.isActive = true := by
  unfold activeAlertsFor
  simp [List.mem_filter, and_assoc]

/-- The ids of the selected active alerts stay duplicate-free. -/
theorem activeAlertsFor_ids_nodup {db : DB} (pid : Nat)
    (h : (db.alerts.map Alert.id).Nodup) :
    ((activeAlertsFor db pid).map Alert.id).Nodup :=
  h.sublist ((List.filter_sublist db.alerts).map Alert.id)

/-- A record that no listed alert with its id can fire on survives the
loop untouched. -/
theorem loop_preserves_nonfiring (env : Env) (p : Int) (l : List Alert) (db : DB)
    {x : Alert} (hx : x ∈ db.alerts)
    (hno : ∀ b ∈ l, b.id = x.id → ¬ p ≤ b.targetPrice) :
    x ∈ (checkAlertsLoop env p l db).1.alerts := by
  induction l generalizing db with
  | nil => exact hx
  | cons a rest ih =>
    unfold checkAlertsLoop
    by_cases h : p ≤ a.targetPrice
    · simp only [if_pos h]
      by_cases hu : env.updateAlertFails a.id
      · simpa [hu] using hx
      · have hne : a.id ≠ x.id := fun he => hno a (List.mem_cons_self a rest) he h
        simp only [hu, Bool.false_eq_true, if_neg, not_false_iff]
        exact ih _ (mem_deactivateAlert_of_id_ne hx (Ne.symm hne))
          (fun b hb => hno b (List.mem_cons_of_mem a hb))
    · simp only [if_neg h]
      exact ih _ hx (fun b hb => hno b (List.mem_cons_of_mem a hb))

/-- An inactive record is preserved by the loop, which only targets ids of
listed (active) alerts. -/
theorem loop_preserves_inactive (env : Env) (p : Int) (l : List Alert) (db : DB)
    {x : Alert}
    (hsub : ∀ b ∈ l, b ∈ db.alerts ∧ b.isActive = true)
    (hl : (l.map Alert.id).Nodup)
    (hdb : (db.alerts.map Alert.id).Nodup)
    (hx : x ∈ db.alerts) (hxa : x.isActive = false) :
    x ∈ (checkAlertsLoop env p l db).1.alerts := by
  induction l generalizing db with
  | nil => exact hx
  | cons a rest ih =>
    have ha : a ∈ db.alerts ∧ a.isActive = true := hsub a (List.mem_cons_self a rest)
    rw [List.map_cons] at hl
    have hl1 := (List.nodup_cons.mp hl).1
    have hl2 := (List.nodup_cons.mp hl).2
    have hxa' : x.id ≠ a.id := by
      intro he
      have hxe : x = a := List.inj_on_of_nodup_map hdb hx ha.1 he
      have hcontra := ha.2
      rw [← hxe, hxa] at hcontra
      exact Bool.noConfusion hcontra
    unfold checkAlertsLoop
    by_cases h : p ≤ a.targetPrice
    · simp only [if_pos h]
      by_cases hu : env.updateAlertFails a.id
      · simpa [hu] using hx
      · simp only [hu, Bool.false_eq_true, if_neg, not_false_iff]
        have hdb' : ((deactivateAlert db a.id env.now).alerts.map Alert.id).Nodup := by
          rw [deactivateAlert_map_id]; exact hdb
        refine ih _ ?_ hl2 hdb' (mem_deactivateAlert_of_id_ne hx hxa')
        intro b hb
        have hbdb := hsub b (List.mem_cons_of_mem a hb)
        have hbne : b.id ≠ a.id := by
          intro he
          exact hl1 (he ▸ List.mem_map_of_mem Alert.id hb)
        exact ⟨mem_deactivateAlert_of_id_ne hbdb.1 hbne, hbdb.2⟩
    · simp only [if_neg h]
      exact ih _ (fun b hb => hsub b (List.mem_cons_of_mem a hb)) hl2 hdb hx

/-- With no store failures along the list, a listed alert that meets the
firing rule ends up deactivated (id fixed, flag cleared, timestamp set)
and appears in the notification trace with its delivery outcome. -/
theorem loop_fires (env : Env) (p : Int) (l : List Alert) (db : DB)
    {a : Alert}
    (hsub : ∀ b ∈ l, b ∈ db.alerts ∧ b.isActive = true)
    (hl : (l.map Alert.id).Nodup)
    (hdb : (db.alerts.map Alert.id).Nodup)
    (hupd : ∀ b ∈ l, env.updateAlertFails b.id = false)
    (ha : a ∈ l) (hfire : p ≤ a.targetPrice) :
    { a with isActive := false, triggeredAt := some env.now }
      ∈ (checkAlertsLoop env p l db).1.alerts ∧
    (a.id, !(env.notifyFails a.id)) ∈ (checkAlertsLoop env p l db).2 := by
  induction l generalizing db with
  | nil => cases ha
  | cons b rest ih =>
    rw [List.map_cons] at hl
    have hl1 := (List.nodup_cons.mp hl).1
    have hl2 := (List.nodup_cons.mp hl).2
    have hbdb := hsub b (List.mem_cons_self b rest)
    rcases List.mem_cons.mp ha with hab | ha'
    · subst hab
      unfold checkAlertsLoop
      simp only [if_pos hfire, hupd a (List.mem_cons_self a rest), Bool.false_eq_true,
        if_neg, not_false_iff]
      constructor
      · have hmem := @deactivated_mem _ env.now _ hbdb.1
        refine loop_preserves_inactive env p rest _ ?_ hl2 ?_ hmem rfl
        · intro c hc
          have hcdb := hsub c (List.mem_cons_of_mem a hc)
          have hcne : c.id ≠ a.id := fun he => hl1 (he ▸ List.mem_map_of_mem Alert.id hc)
          exact ⟨mem_deactivateAlert_of_id_ne hcdb.1 hcne, hcdb.2⟩
        · rw [deactivateAlert_map_id]; exact hdb
      · exact List.mem_cons_self _ _
    · unfold checkAlertsLoop
      by_cases h : p ≤ b.targetPrice
      · simp only [if_pos h, hupd b (List.mem_cons_self b rest), Bool.false_eq_true,
          if_neg, not_false_iff]
        have hstep : ∀ c ∈ rest, c ∈ (deactivateAlert db b.id env.now).alerts ∧
            c.isActive = true := by
          intro c hc
          have hcdb := hsub c (List.mem_cons_of_mem b hc)
          have hcne : c.id ≠ b.id := fun he => hl1 (he ▸ List.mem_map_of_mem Alert.id hc)
          exact ⟨mem_deactivateAlert_of_id_ne hcdb.1 hcne, hcdb.2⟩
        have hdb' : ((deactivateAlert db b.id env.now).alerts.map Alert.id).Nodup := by
          rw [deactivateAlert_map_id]; exact hdb
        have hres := ih _ hstep hl2 hdb'
          (fun c hc => hupd c (List.mem_cons_of_mem b hc)) ha'
        exact ⟨hres.1, List.mem_cons_of_mem _ hres.2⟩
      · simp only [if_neg h]
        exact ih _ (fun c hc => hsub c (List.mem_cons_of_mem b hc)) hl2 hdb
          (fun c hc => hupd c (List.mem_cons_of_mem b hc)) ha'

/-- Every notification recorded by the loop belongs to a listed alert that
met the firing rule, with the delivery outcome of that alert. -/
theorem loop_notified_sound (env : Env) (p : Int) (l : List Alert) (db : DB)
    {x : Nat × Bool} (hx : x ∈ (checkAlertsLoop env p l db).2) :
    ∃ b ∈ l, x.1 = b.id ∧ p ≤ b.targetPrice ∧ x.2 = !(env.notifyFails b.id) := by
  induction l generalizing db with
  | nil => cases hx
  | cons a rest ih =>
    unfold checkAlertsLoop at hx
    by_cases h : p ≤ a.targetPrice
    · simp only [if_pos h] at hx
      by_cases hu : env.updateAlertFails a.id
      · simp only [hu, if_pos] at hx
        rcases List.mem_singleton.mp hx with hxa
        exact ⟨a, List.mem_cons_self a rest, by rw [hxa], h, by rw [hxa]; rfl⟩
      · simp only [hu, Bool.false_eq_true, if_neg, not_false_iff] at hx
        rcases List.mem_cons.mp hx with hxa | hx'
        · exact ⟨a, List.mem_cons_self a rest, by rw [hxa], h, by rw [hxa]; rfl⟩
        · rcases ih _ hx' with ⟨b, hb, hrest⟩
          exact ⟨b, List.mem_cons_of_mem a hb, hrest⟩
    · simp only [if_neg h] at hx
      rcases ih _ hx with ⟨b, hb, hrest⟩
      exact ⟨b, List.mem_cons_of_mem a hb, hrest⟩

/-- With no store failures along the list, the loop notifies exactly the
listed alerts that meet the firing rule, in order, recording each delivery
outcome. -/
theorem loop_notified_of_ok (env : Env) (p : Int) (l : List Alert) (db : DB)
    (hupd : ∀ b ∈ l, env.updateAlertFails b.id = false) :
    (checkAlertsLoop env p l db).2 =
      (l.filter fun b => decide (p ≤ b.targetPrice)).map
        fun b => (b.id, !(env.notifyFails b.id)) := by
  induction l generalizing db with
  | nil => rfl
  | cons a rest ih =>
    unfold checkAlertsLoop
    by_cases h : p ≤ a.targetPrice
    · simp only [if_pos h, hupd a (List.mem_cons_self a rest), Bool.false_eq_true,
        if_neg, not_false_iff]
      rw [List.filter_cons_of_pos (by simpa using h), List.map_cons]
      simp only [sendPriceAlert]
      rw [ih _ (fun b hb => hupd b (List.mem_cons_of_mem a hb))]
    · simp only [if_neg h]
      rw [List.filter_cons_of_neg (by simpa using h)]
      exact ih _ (fun b hb => hupd b (List.mem_cons_of_mem a hb))

/-- Every record after the loop is either an original record or the fired
form of an original record whose id belongs to a listed alert that met the
firing rule. -/
theorem loop_mem_cases (env : Env) (p : Int) (l : List Alert) (db : DB)
    {y : Alert} (hy : y ∈ (checkAlertsLoop env p l db).1.alerts) :
    ∃ x ∈ db.alerts, x.id = y.id ∧
      (y = x ∨ (y = { x with isActive := false, triggeredAt := some env.now } ∧
        ∃ b ∈ l, b.id = x.id ∧ p ≤ b.targetPrice)) := by
  induction l generalizing db with
  | nil => exact ⟨y, hy, rfl, Or.inl rfl⟩
  | cons a rest ih =>
    unfold checkAlertsLoop at hy
    by_cases h : p ≤ a.targetPrice
    · simp only [if_pos h] at hy
      by_cases hu : env.updateAlertFails a.id
      · simp only [hu, if_pos] at hy
        exact ⟨y, hy, rfl, Or.inl rfl⟩
      · simp only [hu, Bool.false_eq_true, if_neg, not_false_iff] at hy
        rcases ih _ hy with ⟨x1, hx1, hid1, hcase1⟩
        unfold deactivateAlert at hx1
        rcases List.mem_map.mp hx1 with ⟨x0, hx0, hfx0⟩
        by_cases hxa : x0.id = a.id
        · rw [if_pos hxa] at hfx0
          refine ⟨x0, hx0, ?_, ?_⟩
          · rw [← hid1, ← hfx0]
          · rcases hcase1 with hc | hc
            · exact Or.inr ⟨by rw [hc, ← hfx0], a, List.mem_cons_self a rest,
                hxa.symm, h⟩
            · refine Or.inr ⟨?_, a, List.mem_cons_self a rest, hxa.symm, h⟩
              rw [hc.1, ← hfx0]
        · rw [if_neg hxa] at hfx0
          subst hfx0
          refine ⟨x0, hx0, hid1, ?_⟩
          rcases hcase1 with hc | hc
          · exact Or.inl hc
          · rcases hc.2 with ⟨b, hb, hbid, hbp⟩
            exact Or.inr ⟨hc.1, b, List.mem_cons_of_mem a hb, hbid, hbp⟩
    · simp only [if_neg h] at hy
      rcases ih _ hy with ⟨x1, hx1, hid1, hcase1⟩
      refine ⟨x1, hx1, hid1, ?_⟩
      rcases hcase1 with hc | hc
      · exact Or.inl hc
      · rcases hc.2 with ⟨b, hb, hbid, hbp⟩
        exact Or.inr ⟨hc.1, b, List.mem_cons_of_mem a hb, hbid, hbp⟩

/-- The price update touches only the products table. -/
theorem updateProductPrice_priceHistory (db : DB) (pid : Nat) (p : Int) (n : Nat) :
    (updateProductPrice db pid p n).priceHistory = db.priceHistory := rfl

/-- The price update touches only the products table. -/
theorem updateProductPrice_alerts (db : DB) (pid : Nat) (p : Int) (n : Nat) :
    (updateProductPrice db pid p n).alerts = db.alerts := rfl

/-- The history insert touches only the price-history table. -/
theorem appendHistory_alerts (db : DB) (pid : Nat) (p : Int) (n : Nat) :
    (appendHistory db pid p n).alerts = db.alerts := rfl

/-- The history insert appends exactly one row. -/
theorem appendHistory_priceHistory (db : DB) (pid : Nat) (p : Int) (n : Nat) :
    (appendHistory db pid p n).priceHistory = db.priceHistory ++ [⟨pid, p, n⟩] := rfl

/-- Alert evaluation never touches the price-history table. -/
theorem checkAlerts_priceHistory (env : Env) (db : DB) (pid : Nat) (p : Int) :
    (checkAlerts env db pid p).1.priceHistory = db.priceHistory :=
  checkAlertsLoop_priceHistory env p (activeAlertsFor db pid) db

/-- Alert evaluation never touches the products table. -/
theorem checkAlerts_products (env : Env) (db : DB) (pid : Nat) (p : Int) :
    (checkAlerts env db pid p).1.products = db.products :=
  checkAlertsLoop_products env p (activeAlertsFor db pid) db

/-- Environment with a fixed clock and no delivery or store failures. -/
def envOK : Env :=
  { now := 7, notifyFails := fun _ => false, updateAlertFails := fun _ => false }

/-- Environment in which every email delivery fails but the store works. -/
def envNotifyDown : Env :=
  { now := 7, notifyFails := fun _ => true, updateAlertFails := fun _ => false }

/-- Environment in which the deactivating UPDATE for alert id 1 throws. -/
def envUpdateFails1 : Env :=
  { now := 7, notifyFails := fun _ => false, updateAlertFails := fun i => i == 1 }

/-- A product row at price 100. -/
def prodHundred : Product :=
  { id := 1, marketplaceUrl := "https://www.facebook.com/marketplace/item/123",
    currentPrice := 100, lastChecked := none, status := "active" }

/-- An active alert on product 1 with target price 90. -/
def alertNinety : Alert :=
  { id := 1, productId := 1, userEmail := "buyer@example.com", targetPrice := 90,
    isActive := true, triggeredAt := none }

/-- Store with one product at price 100 and one active alert at target 90. -/
def dbOne : DB :=
  { products := [prodHundred], priceHistory := [], alerts := [alertNinety] }

/-- C1: ingesting a price equal to the stored current price appends no
price-history entry and signals `changed = false`; ingesting a differing
price appends exactly one history entry carrying that price and signals
`changed = true`. -/
theorem ingest_history_iff_price_changed (env : Env) (db : DB) (pid : Nat) (p : Int)
    (product : Product) (hfind : findProduct db pid = some product) :
    (p = product.currentPrice →
      (ingest env db pid p).1.priceHistory = db.priceHistory ∧
      (ingest env db pid p).2 = IngestResult.ok false) ∧
    (p ≠ product.currentPrice →
      (ingest env db pid p).1.priceHistory = db.priceHistory ++ [⟨pid, p, env.now⟩] ∧
      (ingest env db pid p).2 = IngestResult.ok true) := by
  simp only [ingest, hfind]
  constructor
  · intro he
    rw [if_neg (by simpa using he)]
    exact ⟨rfl, rfl⟩
  · intro hne
    rw [if_pos hne]
    refine ⟨?_, rfl⟩
    show (checkAlerts env _ pid p).1.priceHistory = _
    rw [checkAlerts_priceHistory, appendHistory_priceHistory, updateProductPrice_priceHistory]

/-- Witness for C1 at the concrete one-product store: price 100 is
unchanged (no append, changed false), price 95 differs (one append of 95,
changed true). -/
theorem ingest_history_iff_price_changed_witness :
    (findProduct dbOne 1 = some prodHundred ∧ (100 : Int) = prodHundred.currentPrice ∧
      (95 : Int) ≠ prodHundred.currentPrice) ∧
    ((ingest envOK dbOne 1 100).1.priceHistory = dbOne.priceHistory ∧
      (ingest envOK dbOne 1 100).2 = IngestResult.ok false) ∧
    ((ingest envOK dbOne 1 95).1.priceHistory = dbOne.priceHistory ++ [⟨1, 95, 7⟩] ∧
      (ingest envOK dbOne 1 95).2 = IngestResult.ok true) :=
  ⟨⟨by decide, by decide, by decide⟩,
    (ingest_history_iff_price_changed envOK dbOne 1 100 prodHundred (by decide)).1 (by decide),
    (ingest_history_iff_price_changed envOK dbOne 1 95 prodHundred (by decide)).2 (by decide)⟩

/-- C2: with a working store, an active alert for the product fires iff
the current price is at or below its target (non-strict, so a price equal
to the target fires); a fired alert ends inactive with its triggered
timestamp set, and a non-firing alert is left unchanged. -/
theorem alert_fires_iff_at_or_below_target (env : Env) (db : DB) (pid : Nat) (p : Int)
    (a : Alert)
    (hupd : ∀ i, env.updateAlertFails i = false)
    (hdb : (db.alerts.map Alert.id).Nodup)
    (ha : a ∈ db.alerts) (hpid : a.productId = pid) (hact : a.isActive = true) :
    ((∃ d, (a.id, d) ∈ (checkAlertsTrace env db pid p).2) ↔ p ≤ a.targetPrice) ∧
    (p ≤ a.targetPrice →
      { a with isActive := false, triggeredAt := some env.now }
        ∈ (checkAlertsTrace env db pid p).1.alerts) ∧
    (¬ p ≤ a.targetPrice → a ∈ (checkAlertsTrace env db pid p).1.alerts) := by
  have hal : a ∈ activeAlertsFor db pid := mem_activeAlertsFor.mpr ⟨ha, hpid, hact⟩
  have hsub : ∀ b ∈ activeAlertsFor db pid, b ∈ db.alerts ∧ b.isActive = true :=
    fun b hb => ⟨(mem_activeAlertsFor.mp hb).1, (mem_activeAlertsFor.mp hb).2.2⟩
  have hl := @activeAlertsFor_ids_nodup db pid hdb
  refine ⟨⟨?_, ?_⟩, ?_, ?_⟩
  · rintro ⟨d, hd⟩
    rcases loop_notified_sound env p _ db hd with ⟨b, hb, hbid, hbp, _⟩
    have hab : a = b :=
      List.inj_on_of_nodup_map hdb ha (hsub b hb).1 hbid
    rw [hab]
    exact hbp
  · intro hfire
    exact ⟨!(env.notifyFails a.id),
      (loop_fires env p _ db hsub hl hdb (fun b _ => hupd b.id) hal hfire).2⟩
  · intro hfire
    exact (loop_fires env p _ db hsub hl hdb (fun b _ => hupd b.id) hal hfire).1
  · intro hnof
    refine loop_preserves_nonfiring env p _ db ha ?_
    intro b hb hbid
    have hba : b = a :=
      List.inj_on_of_nodup_map hdb (hsub b hb).1 ha hbid
    rw [hba]
    exact hnof

/-- Witness for C2: the concrete alert at target 90 fires at price 90 and
its record ends deactivated with the timestamp set. -/
theorem alert_fires_iff_at_or_below_target_witness :
    ((∀ i, envOK.updateAlertFails i = false) ∧ (dbOne.alerts.map Alert.id).Nodup ∧
      alertNinety ∈ dbOne.alerts ∧ alertNinety.productId = 1 ∧
      alertNinety.isActive = true) ∧
    ((∃ d, (alertNinety.id, d) ∈ (checkAlertsTrace envOK dbOne 1 90).2) ↔
      (90 : Int) ≤ alertNinety.targetPrice) ∧
    ((90 : Int) ≤ alertNinety.targetPrice →
      { alertNinety with isActive := false, triggeredAt := some envOK.now }
        ∈ (checkAlertsTrace envOK dbOne 1 90).1.alerts) ∧
    (¬ (90 : Int) ≤ alertNinety.targetPrice →
      alertNinety ∈ (checkAlertsTrace envOK dbOne 1 90).1.alerts) :=
  ⟨⟨fun _ => rfl, by decide, by decide, by decide, by decide⟩,
    alert_fires_iff_at_or_below_target envOK dbOne 1 90 alertNinety
      (fun _ => rfl) (by decide) (by decide) (by decide) (by decide)⟩

/-- C3: with a working store, a firing alert is deactivated and its
triggered timestamp set even when the Notifier reports a delivery
failure; the failed delivery is recorded in the trace as attempted. -/
theorem notify_failure_still_deactivates (env : Env) (db : DB) (pid : Nat) (p : Int)
    (a : Alert)
    (hupd : ∀ i, env.updateAlertFails i = false)
    (hdb : (db.alerts.map Alert.id).Nodup)
    (ha : a ∈ db.alerts) (hpid : a.productId = pid) (hact : a.isActive = true)
    (hfire : p ≤ a.targetPrice) (hnf : env.notifyFails a.id = true) :
    { a with isActive := false, triggeredAt := some env.now }
      ∈ (checkAlertsTrace env db pid p).1.alerts ∧
    (a.id, false) ∈ (checkAlertsTrace env db pid p).2 := by
  have hal : a ∈ activeAlertsFor db pid := mem_activeAlertsFor.mpr ⟨ha, hpid, hact⟩
  have hsub : ∀ b ∈ activeAlertsFor db pid, b ∈ db.alerts ∧ b.isActive = true :=
    fun b hb => ⟨(mem_activeAlertsFor.mp hb).1, (mem_activeAlertsFor.mp hb).2.2⟩
  have hl := @activeAlertsFor_ids_nodup db pid hdb
  have hres := loop_fires env p _ db hsub hl hdb (fun b _ => hupd b.id) hal hfire
  refine ⟨hres.1, ?_⟩
  have := hres.2
  rw [hnf] at this
  exact this

/-- Witness for C3: with every delivery failing, the concrete alert at
target 90 still ends deactivated after evaluation at price 90. -/
theorem notify_failure_still_deactivates_witness :
    ((∀ i, envNotifyDown.updateAlertFails i = false) ∧
      (dbOne.alerts.map Alert.id).Nodup ∧ alertNinety ∈ dbOne.alerts ∧
      alertNinety.productId = 1 ∧ alertNinety.isActive = true ∧
      (90 : Int) ≤ alertNinety.targetPrice ∧
      envNotifyDown.notifyFails alertNinety.id = true) ∧
    ({ alertNinety with isActive := false, triggeredAt := some envNotifyDown.now }
      ∈ (checkAlertsTrace envNotifyDown dbOne 1 90).1.alerts ∧
    (alertNinety.id, false) ∈ (checkAlertsTrace envNotifyDown dbOne 1 90).2) :=
  ⟨⟨fun _ => rfl, by decide, by decide, by decide, by decide, by decide, by decide⟩,
    notify_failure_still_deactivates envNotifyDown dbOne 1 90 alertNinety
      (fun _ => rfl) (by decide) (by decide) (by decide) (by decide) (by decide) (by decide)⟩

/-- Counterexample to C4 as stated: on the store with listing price 100,
ingesting 95 does append a price-history entry (95 differs from 100), so
the claimed "no history append" step of the scenario is false. -/
theorem scenario_first_step_appends_history :
    dbOne.priceHistory = [] ∧
    (ingest envOK dbOne 1 95).1.priceHistory = [⟨1, 95, 7⟩] ∧
    (ingest envOK dbOne 1 95).1.alerts = dbOne.alerts := by decide

/-- C4 amended: starting from listing price 100 with an active alert at
target 90, ingest(95) appends history entry 95 and fires no alert;
ingest(90) appends entry 90 and the alert fires and becomes inactive;
ingest(85) appends entry 85 and the evaluation notifies no alerts since
none are loaded as active. -/
theorem scenario_sequence_95_90_85 :
    ((ingest envOK dbOne 1 95).1.priceHistory = [⟨1, 95, 7⟩] ∧
      (ingest envOK dbOne 1 95).1.alerts = [alertNinety] ∧
      (checkAlertsTrace envOK
        (appendHistory (updateProductPrice dbOne 1 95 7) 1 95 7) 1 95).2 = []) ∧
    ((ingest envOK (ingest envOK dbOne 1 95).1 1 90).1.priceHistory =
        [⟨1, 95, 7⟩, ⟨1, 90, 7⟩] ∧
      (ingest envOK (ingest envOK dbOne 1 95).1 1 90).1.alerts =
        [{ alertNinety with isActive := false, triggeredAt := some 7 }] ∧
      (checkAlertsTrace envOK
        (appendHistory (updateProductPrice (ingest envOK dbOne 1 95).1 1 90 7) 1 90 7)
        1 90).2 = [(1, true)]) ∧
    ((ingest envOK (ingest envOK (ingest envOK dbOne 1 95).1 1 90).1 1 85).1.priceHistory =
        [⟨1, 95, 7⟩, ⟨1, 90, 7⟩, ⟨1, 85, 7⟩] ∧
      (ingest envOK (ingest envOK (ingest envOK dbOne 1 95).1 1 90).1 1 85).1.alerts =
        [{ alertNinety with isActive := false, triggeredAt := some 7 }] ∧
      activeAlertsFor (ingest envOK (ingest envOK dbOne 1 95).1 1 90).1 1 = [] ∧
      (checkAlertsTrace envOK
        (appendHistory
          (updateProductPrice (ingest envOK (ingest envOK dbOne 1 95).1 1 90).1 1 85 7)
          1 85 7) 1 85).2 = []) := by decide

/-- Store identical to `dbOne` except the alert target is 10, so nothing
fires at price 90. -/
def dbOneLowTarget : DB :=
  { products := [prodHundred], priceHistory := [],
    alerts := [{ alertNinety with targetPrice := 10 }] }

/-- Counterexample to C5 as stated: `checkAlerts` has no return statement,
so its returned value is the same (undefined, modelled as the unit value)
whether an alert fired or not; the evaluation at price 90 fires and
deactivates the alert on one store and fires nothing on the other, yet the
two returned values are equal, so the returned value is not the list of
fired alerts. -/
theorem evaluation_returns_no_fired_list :
    (checkAlerts envOK dbOne 1 90).2 = (checkAlerts envOK dbOneLowTarget 1 90).2 ∧
    (checkAlertsTrace envOK dbOne 1 90).2 = [(1, true)] ∧
    (checkAlertsTrace envOK dbOneLowTarget 1 90).2 = [] ∧
    (checkAlerts envOK dbOne 1 90).1.alerts ≠ dbOne.alerts ∧
    (checkAlerts envOK dbOneLowTarget 1 90).1.alerts = dbOneLowTarget.alerts := by decide

/-- C5 amended: with a working store the evaluation internally fires
exactly the loaded active alerts whose target is at or above the current
price, notifying each regardless of delivery outcome (the fired ids do not
depend on delivery results), but it hands nothing back to its caller. -/
theorem evaluation_fired_set_internal (env : Env) (db : DB) (pid : Nat) (p : Int)
    (hupd : ∀ i, env.updateAlertFails i = false) :
    (checkAlertsTrace env db pid p).2 =
      ((activeAlertsFor db pid).filter fun b => decide (p ≤ b.targetPrice)).map
        (fun b => (b.id, !(env.notifyFails b.id))) ∧
    (checkAlertsTrace env db pid p).2.map Prod.fst =
      ((activeAlertsFor db pid).filter fun b => decide (p ≤ b.targetPrice)).map Alert.id ∧
    (checkAlerts env db pid p).2 = () := by
  have h := loop_notified_of_ok env p (activeAlertsFor db pid) db (fun b _ => hupd b.id)
  refine ⟨h, ?_, rfl⟩
  show (checkAlertsLoop env p (activeAlertsFor db pid) db).2.map Prod.fst = _
  rw [h, List.map_map]
  rfl

/-- Witness for C5 amended at the concrete store: the internal fired list
is the singleton for alert 1 and the caller receives the unit value. -/
theorem evaluation_fired_set_internal_witness :
    (∀ i, envOK.updateAlertFails i = false) ∧
    ((checkAlertsTrace envOK dbOne 1 90).2 =
      ((activeAlertsFor dbOne 1).filter fun b => decide ((90 : Int) ≤ b.targetPrice)).map
        (fun b => (b.id, !(envOK.notifyFails b.id))) ∧
    (checkAlertsTrace envOK dbOne 1 90).2.map Prod.fst =
      ((activeAlertsFor dbOne 1).filter fun b => decide ((90 : Int) ≤ b.targetPrice)).map
        Alert.id ∧
    (checkAlerts envOK dbOne 1 90).2 = ()) :=
  ⟨fun _ => rfl, evaluation_fired_set_internal envOK dbOne 1 90 (fun _ => rfl)⟩

/-- A second active alert on product 1 with target price 95. -/
def alertSecond : Alert :=
  { id := 2, productId := 1, userEmail := "other@example.com", targetPrice := 95,
    isActive := true, triggeredAt := none }

/-- Store with one product at price 100 and two active alerts. -/
def dbTwoAlerts : DB :=
  { products := [prodHundred], priceHistory := [], alerts := [alertNinety, alertSecond] }

/-- Counterexample to C6 as stated: at price 90 both alerts should fire,
but when the deactivating UPDATE for the first alert throws, the single
try/catch around the whole loop stops the evaluation: the second alert is
neither notified nor deactivated. -/
theorem store_failure_blocks_remaining_alerts :
    (90 : Int) ≤ alertSecond.targetPrice ∧ alertSecond.isActive = true ∧
    (checkAlertsTrace envUpdateFails1 dbTwoAlerts 1 90).1 = dbTwoAlerts ∧
    (checkAlertsTrace envUpdateFails1 dbTwoAlerts 1 90).2 = [(1, true)] := by decide

/-- When the first store failure strikes a firing alert, the loop state
and notification trace are exactly those of the prefix processed before
it, plus the failed alert's own (already sent) notification; the suffix
after the failing alert is never reached. -/
theorem loop_stops_at_failure (env : Env) (p : Int) (a : Alert) (l2 : List Alert) :
    ∀ (l1 : List Alert) (db : DB),
      (∀ b ∈ l1, p ≤ b.targetPrice → env.updateAlertFails b.id = false) →
      p ≤ a.targetPrice → env.updateAlertFails a.id = true →
      (checkAlertsLoop env p (l1 ++ a :: l2) db).1 = (checkAlertsLoop env p l1 db).1 ∧
      (checkAlertsLoop env p (l1 ++ a :: l2) db).2 =
        (checkAlertsLoop env p l1 db).2 ++ [(a.id, !(env.notifyFails a.id))] := by
  intro l1
  induction l1 with
  | nil =>
    intro db _ ha hfail
    constructor
    · show (checkAlertsLoop env p (a :: l2) db).1 = _
      unfold checkAlertsLoop
      simp only [if_pos ha, hfail, if_true, sendPriceAlert]
    · show (checkAlertsLoop env p (a :: l2) db).2 = _
      unfold checkAlertsLoop
      simp only [if_pos ha, hfail, if_true, sendPriceAlert]
      rfl
  | cons c rest ih =>
    intro db h1 ha hfail
    rw [List.cons_append]
    by_cases hc : p ≤ c.targetPrice
    · have hcu : env.updateAlertFails c.id = false :=
        h1 c (List.mem_cons_self c rest) hc
      have hih := ih (deactivateAlert db c.id env.now)
        (fun b hb hbf => h1 b (List.mem_cons_of_mem c hb) hbf) ha hfail
      constructor
      · unfold checkAlertsLoop
        simp only [if_pos hc, hcu, Bool.false_eq_true, if_neg, not_false_iff]
        exact hih.1
      · unfold checkAlertsLoop
        simp only [if_pos hc, hcu, Bool.false_eq_true, if_neg, not_false_iff]
        rw [hih.2, List.cons_append]
    · have hih := ih db
        (fun b hb hbf => h1 b (List.mem_cons_of_mem c hb) hbf) ha hfail
      constructor
      · unfold checkAlertsLoop
        simp only [if_neg hc]
        exact hih.1
      · unfold checkAlertsLoop
        simp only [if_neg hc]
        exact hih.2

/-- C6 amended: over an arbitrary alerts table with distinct ids, a
notification failure never blocks the other alerts — with a working store
every active firing alert of the listing is deactivated and notified
whatever the delivery outcomes are — but a store failure while
deactivating one firing alert aborts the evaluation: every alert loaded
after the failing one, firing or not, is left untouched and is never
notified. -/
theorem evaluation_abort_behaviour (env : Env) (db : DB) (pid : Nat) (p : Int)
    (hdb : (db.alerts.map Alert.id).Nodup) :
    ((∀ i, env.updateAlertFails i = false) →
      ∀ b ∈ db.alerts, b.productId = pid → b.isActive = true → p ≤ b.targetPrice →
        { b with isActive := false, triggeredAt := some env.now }
          ∈ (checkAlertsTrace env db pid p).1.alerts ∧
        (b.id, !(env.notifyFails b.id)) ∈ (checkAlertsTrace env db pid p).2) ∧
    (∀ l1 a l2, activeAlertsFor db pid = l1 ++ a :: l2 →
      (∀ b ∈ l1, p ≤ b.targetPrice → env.updateAlertFails b.id = false) →
      p ≤ a.targetPrice → env.updateAlertFails a.id = true →
      ∀ b ∈ l2, b ∈ (checkAlertsTrace env db pid p).1.alerts ∧
        ∀ d, (b.id, d) ∉ (checkAlertsTrace env db pid p).2) := by
  have hsub : ∀ b ∈ activeAlertsFor db pid, b ∈ db.alerts ∧ b.isActive = true :=
    fun b hb => ⟨(mem_activeAlertsFor.mp hb).1, (mem_activeAlertsFor.mp hb).2.2⟩
  have hl := @activeAlertsFor_ids_nodup db pid hdb
  constructor
  · intro hupd b hb hbpid hbact hbfire
    have hbl : b ∈ activeAlertsFor db pid := mem_activeAlertsFor.mpr ⟨hb, hbpid, hbact⟩
    exact loop_fires env p _ db hsub hl hdb (fun c _ => hupd c.id) hbl hbfire
  · intro l1 a l2 hsplit h1 ha hfail
    have hstop := loop_stops_at_failure env p a l2 l1 db h1 ha hfail
    have heq1 : (checkAlertsTrace env db pid p).1 = (checkAlertsLoop env p l1 db).1 := by
      unfold checkAlertsTrace
      rw [hsplit]
      exact hstop.1
    have heq2 : (checkAlertsTrace env db pid p).2 =
        (checkAlertsLoop env p l1 db).2 ++ [(a.id, !(env.notifyFails a.id))] := by
      unfold checkAlertsTrace
      rw [hsplit]
      exact hstop.2
    have hids : ((l1 ++ a :: l2).map Alert.id).Nodup := by
      rw [← hsplit]
      exact hl
    rw [List.map_append] at hids
    have hparts := List.nodup_append.mp hids
    have hdisj := hparts.2.2
    have hmid := hparts.2.1
    rw [List.map_cons] at hmid
    have hanotin := (List.nodup_cons.mp hmid).1
    intro b hb
    have hbid1 : ∀ c ∈ l1, c.id ≠ b.id := by
      intro c hc he
      exact hdisj (List.mem_map_of_mem Alert.id hc)
        (by
          rw [he]
          exact List.mem_cons_of_mem a.id (List.mem_map_of_mem Alert.id hb))
    have hbida : a.id ≠ b.id := by
      intro he
      exact hanotin (he ▸ List.mem_map_of_mem Alert.id hb)
    have hbdb : b ∈ db.alerts := by
      have hbm : b ∈ activeAlertsFor db pid := by
        rw [hsplit]
        exact List.mem_append_right l1 (List.mem_cons_of_mem a hb)
      exact (mem_activeAlertsFor.mp hbm).1
    constructor
    · rw [heq1]
      refine loop_preserves_nonfiring env p l1 db hbdb ?_
      intro c hc hce
      exact absurd hce (hbid1 c hc)
    · intro d hd
      rw [heq2] at hd
      rcases List.mem_append.mp hd with hd1 | hd1
      · rcases loop_notified_sound env p l1 db hd1 with ⟨c, hc, hcid, _, _⟩
        exact hbid1 c hc hcid.symm
      · rcases List.mem_singleton.mp hd1 with he
        have : b.id = a.id := congrArg Prod.fst he
        exact hbida this.symm

/-- Witness for C6 amended: on the two-alert store, the store failure on
alert 1 (the first loaded alert) leaves alert 2 untouched and unnotified,
while with a working store alert 2 is deactivated and notified whatever
the delivery outcome. -/
theorem evaluation_abort_behaviour_witness :
    ((dbTwoAlerts.alerts.map Alert.id).Nodup ∧
      activeAlertsFor dbTwoAlerts 1 = [] ++ alertNinety :: [alertSecond] ∧
      (90 : Int) ≤ alertNinety.targetPrice ∧
      envUpdateFails1.updateAlertFails alertNinety.id = true ∧
      (∀ i, envOK.updateAlertFails i = false) ∧
      alertSecond ∈ dbTwoAlerts.alerts ∧ alertSecond.productId = 1 ∧
      alertSecond.isActive = true ∧ (90 : Int) ≤ alertSecond.targetPrice) ∧
    (alertSecond ∈ (checkAlertsTrace envUpdateFails1 dbTwoAlerts 1 90).1.alerts ∧
      ∀ d, (alertSecond.id, d) ∉ (checkAlertsTrace envUpdateFails1 dbTwoAlerts 1 90).2) ∧
    ({ alertSecond with isActive := false, triggeredAt := some envOK.now }
        ∈ (checkAlertsTrace envOK dbTwoAlerts 1 90).1.alerts ∧
      (alertSecond.id, !(envOK.notifyFails alertSecond.id))
        ∈ (checkAlertsTrace envOK dbTwoAlerts 1 90).2) :=
  ⟨⟨by decide, by decide, by decide, by decide, fun _ => rfl, by decide, by decide,
      by decide, by decide⟩,
    (evaluation_abort_behaviour envUpdateFails1 dbTwoAlerts 1 90 (by decide)).2
      [] alertNinety [alertSecond] (by decide)
      (fun b hb _ => absurd hb (List.not_mem_nil b)) (by decide) (by decide)
      alertSecond (List.mem_singleton_self alertSecond),
    (evaluation_abort_behaviour envOK dbTwoAlerts 1 90 (by decide)).1 (fun _ => rfl)
      alertSecond (by decide) (by decide) (by decide) (by decide)⟩

/-- Counterexample to C7 as stated: ingesting the negative price -5 is not
rejected: it reports success, updates the listing price to -5, appends a
history entry with -5, and even fires the alert (since -5 is at or below
the target 90). -/
theorem negative_price_not_rejected :
    (ingest envOK dbOne 1 (-5)).2 = IngestResult.ok true ∧
    (ingest envOK dbOne 1 (-5)).1.priceHistory = [⟨1, -5, 7⟩] ∧
    (ingest envOK dbOne 1 (-5)).1.products.map Product.currentPrice = [-5] ∧
    (ingest envOK dbOne 1 (-5)).1.alerts =
      [{ alertNinety with isActive := false, triggeredAt := some 7 }] := by decide

/-- C7 amended: the ingest path performs no validation of the observed
price; any price, negative included, is accepted and proceeds to update
the listing, append history, and evaluate alerts; the only validation in
the pipeline is the URL check in the scraper stub, which otherwise always
produces price 0. -/
theorem ingest_accepts_negative_price (env : Env) (db : DB) (pid : Nat) (p : Int)
    (product : Product)
    (hfind : findProduct db pid = some product)
    (hneg : p < 0) (hne : p ≠ product.currentPrice) :
    (ingest env db pid p).2 = IngestResult.ok true ∧
    (ingest env db pid p).1.priceHistory = db.priceHistory ++ [⟨pid, p, env.now⟩] ∧
    (ingest env db pid p).1.products = (updateProductPrice db pid p env.now).products ∧
    (∀ url d, scrapeFacebookListing url = Except.ok d → d.price = 0) := by
  simp only [ingest, hfind, if_pos hne]
  refine ⟨trivial, ?_, ?_, ?_⟩
  · show (checkAlerts env _ pid p).1.priceHistory = _
    rw [checkAlerts_priceHistory, appendHistory_priceHistory, updateProductPrice_priceHistory]
  · show (checkAlerts env _ pid p).1.products = _
    rw [checkAlerts_products]
    rfl
  · intro url d hd
    unfold scrapeFacebookListing at hd
    cases h : findItemId url.toList with
    | none => rw [h] at hd; cases hd
    | some lid =>
      rw [h] at hd
      injection hd with hd2
      rw [← hd2]

/-- Witness for C7 amended at the concrete store with observed price -5. -/
theorem ingest_accepts_negative_price_witness :
    (findProduct dbOne 1 = some prodHundred ∧ (-5 : Int) < 0 ∧
      (-5 : Int) ≠ prodHundred.currentPrice) ∧
    ((ingest envOK dbOne 1 (-5)).2 = IngestResult.ok true ∧
      (ingest envOK dbOne 1 (-5)).1.priceHistory =
        dbOne.priceHistory ++ [⟨1, -5, 7⟩] ∧
      (ingest envOK dbOne 1 (-5)).1.products =
        (updateProductPrice dbOne 1 (-5) 7).products ∧
      (∀ url d, scrapeFacebookListing url = Except.ok d → d.price = 0)) :=
  ⟨⟨by decide, by decide, by decide⟩,
    ingest_accepts_negative_price envOK dbOne 1 (-5) prodHundred
      (by decide) (by decide) (by decide)⟩

/-- Mapping a function that does not change a predicate commutes with the
first-match lookup. -/
theorem find?_map_of_pred_inv {α : Type} (f : α → α) (pred : α → Bool)
    (hf : ∀ x, pred (f x) = pred x) :
    ∀ l : List α, (l.map f).find? pred = (l.find? pred).map f
  | [] => rfl
  | x :: xs => by
    by_cases h : pred x = true
    · rw [List.map_cons, List.find?_cons_of_pos _ (by rw [hf]; exact h),
        List.find?_cons_of_pos _ h]
      rfl
    · rw [List.map_cons, List.find?_cons_of_neg _ (by rw [hf]; simpa using h),
        List.find?_cons_of_neg _ (by simpa using h)]
      exact find?_map_of_pred_inv f pred hf xs

/-- Looking up the product after its price update returns the updated row. -/
theorem findProduct_updateProductPrice (db : DB) (pid : Nat) (p : Int) (n : Nat) :
    findProduct (updateProductPrice db pid p n) pid =
      (findProduct db pid).map fun q =>
        if q.id = pid then { q with currentPrice := p, lastChecked := some n } else q := by
  unfold findProduct updateProductPrice
  exact find?_map_of_pred_inv _ _
    (fun q => by by_cases h : q.id = pid <;> simp [h]) db.products

/-- An ingest of the currently stored price only refreshes the product row. -/
theorem ingest_unchanged_step (env : Env) (db : DB) (pid : Nat) (p : Int)
    (q : Product) (hfind : findProduct db pid = some q) (heq : q.currentPrice = p) :
    ingest env db pid p = (updateProductPrice db pid p env.now, IngestResult.ok false) := by
  simp [ingest, hfind, heq]

/-- C8: re-ingesting the stored current price any number of times never
appends a history entry, never changes any alert, and each application
signals `changed = false` (so alert evaluation is never reached, which the
ingest definition only invokes on the changed branch). -/
theorem ingest_idempotent_on_unchanged_price (env : Env) (db : DB) (pid : Nat) (p : Int)
    (product : Product)
    (hfind : findProduct db pid = some product) (heq : product.currentPrice = p) :
    ∀ n, (ingestIter env db pid p n).priceHistory = db.priceHistory ∧
      (ingestIter env db pid p n).alerts = db.alerts ∧
      (ingest env (ingestIter env db pid p n) pid p).2 = IngestResult.ok false := by
  have haux : ∀ n (db0 : DB) (q : Product), findProduct db0 pid = some q →
      q.currentPrice = p →
      (ingestIter env db0 pid p n).priceHistory = db0.priceHistory ∧
      (ingestIter env db0 pid p n).alerts = db0.alerts ∧
      ∃ q2, findProduct (ingestIter env db0 pid p n) pid = some q2 ∧
        q2.currentPrice = p := by
    intro n
    induction n with
    | zero => exact fun db0 q hf hq => ⟨rfl, rfl, q, hf, hq⟩
    | succ m ih =>
      intro db0 q hf hq
      have hstep : ingestIter env db0 pid p (m + 1) =
          ingestIter env (updateProductPrice db0 pid p env.now) pid p m := by
        have he : (ingest env db0 pid p).1 = updateProductPrice db0 pid p env.now := by
          rw [ingest_unchanged_step env db0 pid p q hf hq]
        show ingestIter env (ingest env db0 pid p).1 pid p m = _
        rw [he]
      have hqid : q.id = pid := by
        have := List.find?_some hf
        simpa using this
      have hf2 : findProduct (updateProductPrice db0 pid p env.now) pid =
          some { q with currentPrice := p, lastChecked := some env.now } := by
        rw [findProduct_updateProductPrice, hf]
        show some (if q.id = pid then _ else q) = _
        rw [if_pos hqid]
      rcases ih (updateProductPrice db0 pid p env.now)
          { q with currentPrice := p, lastChecked := some env.now } hf2 rfl with
        ⟨h1, h2, h3⟩
      rw [hstep]
      exact ⟨by rw [h1, updateProductPrice_priceHistory],
        by rw [h2, updateProductPrice_alerts], h3⟩
  intro n
  rcases haux n db product hfind heq with ⟨h1, h2, q2, hq2, hcp⟩
  refine ⟨h1, h2, ?_⟩
  rw [ingest_unchanged_step env _ pid p q2 hq2 hcp]

/-- Witness for C8: three re-ingests of the stored price 100 leave history
and alerts unchanged and the next ingest still reports no change. -/
theorem ingest_idempotent_on_unchanged_price_witness :
    (findProduct dbOne 1 = some prodHundred ∧ prodHundred.currentPrice = 100) ∧
    ((ingestIter envOK dbOne 1 100 3).priceHistory = dbOne.priceHistory ∧
      (ingestIter envOK dbOne 1 100 3).alerts = dbOne.alerts ∧
      (ingest envOK (ingestIter envOK dbOne 1 100 3) 1 100).2 = IngestResult.ok false) :=
  ⟨⟨by decide, by decide⟩,
    ingest_idempotent_on_unchanged_price envOK dbOne 1 100 prodHundred
      (by decide) (by decide) 3⟩

/-- C10: alert evaluation never propagates an error. When the deactivating
UPDATE for the sole loaded firing alert throws, the error is caught inside
`checkAlerts`: the enclosing ingest still reports success with
`changed = true`, the alerts table is exactly as before — the notified
alert remains active with its timestamp unset — and the internal trace
records that the alert had already been notified before the failure. -/
theorem evaluation_error_swallowed (env : Env) (db : DB) (pid : Nat) (p : Int)
    (product : Product) (a : Alert)
    (hfind : findProduct db pid = some product)
    (hne : p ≠ product.currentPrice)
    (hacts : activeAlertsFor db pid = [a])
    (hfire : p ≤ a.targetPrice)
    (hupd : env.updateAlertFails a.id = true) :
    (ingest env db pid p).2 = IngestResult.ok true ∧
    (ingest env db pid p).1.alerts = db.alerts ∧
    a ∈ (ingest env db pid p).1.alerts ∧ a.isActive = true ∧
    (checkAlertsTrace env
      (appendHistory (updateProductPrice db pid p env.now) pid p env.now) pid p).2 =
      [(a.id, !(env.notifyFails a.id))] := by
  have hmem : a ∈ db.alerts ∧ a.productId = pid ∧ a.isActive = true :=
    mem_activeAlertsFor.mp (by rw [hacts]; exact List.mem_singleton_self a)
  have htr : checkAlertsTrace env
      (appendHistory (updateProductPrice db pid p env.now) pid p env.now) pid p =
      (appendHistory (updateProductPrice db pid p env.now) pid p env.now,
        [(a.id, !(env.notifyFails a.id))]) := by
    unfold checkAlertsTrace
    have hacts2 : activeAlertsFor
        (appendHistory (updateProductPrice db pid p env.now) pid p env.now) pid = [a] :=
      hacts
    rw [hacts2]
    simp only [checkAlertsLoop, if_pos hfire, hupd, if_true, sendPriceAlert]
  have hing : ingest env db pid p =
      ((checkAlerts env
        (appendHistory (updateProductPrice db pid p env.now) pid p env.now) pid p).1,
        IngestResult.ok true) := by
    simp only [ingest, hfind, if_pos hne]
  have halerts : (ingest env db pid p).1.alerts = db.alerts := by
    rw [hing]
    show (checkAlertsTrace env
      (appendHistory (updateProductPrice db pid p env.now) pid p env.now) pid p).1.alerts = _
    rw [htr]
    rfl
  refine ⟨by rw [hing], halerts, ?_, hmem.2.2, by rw [htr]⟩
  rw [halerts]
  exact hmem.1

/-- Witness for C10 at the concrete store: the UPDATE for alert 1 throws,
yet the manual refresh at price 90 reports success and the alert stays
exactly as it was. -/
theorem evaluation_error_swallowed_witness :
    (findProduct dbOne 1 = some prodHundred ∧ (90 : Int) ≠ prodHundred.currentPrice ∧
      activeAlertsFor dbOne 1 = [alertNinety] ∧
      (90 : Int) ≤ alertNinety.targetPrice ∧
      envUpdateFails1.updateAlertFails alertNinety.id = true) ∧
    ((ingest envUpdateFails1 dbOne 1 90).2 = IngestResult.ok true ∧
      (ingest envUpdateFails1 dbOne 1 90).1.alerts = dbOne.alerts ∧
      alertNinety ∈ (ingest envUpdateFails1 dbOne 1 90).1.alerts ∧
      alertNinety.isActive = true ∧
      (checkAlertsTrace envUpdateFails1
        (appendHistory (updateProductPrice dbOne 1 90 7) 1 90 7) 1 90).2 =
        [(alertNinety.id, !(envUpdateFails1.notifyFails alertNinety.id))]) :=
  ⟨⟨by decide, by decide, by decide, by decide, by decide⟩,
    evaluation_error_swallowed envUpdateFails1 dbOne 1 90 prodHundred alertNinety
      (by decide) (by decide) (by decide) (by decide) (by decide)⟩

/-- Every element of a list of naturals is bounded by the folded maximum. -/
theorem le_foldr_max (l : List Nat) : ∀ x ∈ l, x ≤ l.foldr max 0 := by
  induction l with
  | nil => intro x hx; cases hx
  | cons a as ih =>
    intro x hx
    rcases List.mem_cons.mp hx with h | h
    · rw [h]; exact le_max_left _ _
    · exact le_trans (ih x h) (le_max_right _ _)

/-- The serial id handed to a new alert is unused. -/
theorem freshAlertId_not_mem (db : DB) : freshAlertId db ∉ db.alerts.map Alert.id := by
  intro hmem
  have hle := le_foldr_max (db.alerts.map Alert.id) _ hmem
  unfold freshAlertId at hle
  omega

/-- The alert ids are pairwise distinct (the serial primary key). -/
def alertIdsNodup (db : DB) : Prop :=
  (db.alerts.map Alert.id).Nodup

/-- Every alert row is active exactly while its triggered timestamp is
still null. -/
def alertsInvariant (db : DB) : Prop :=
  ∀ a ∈ db.alerts, a.isActive = true ↔ a.triggeredAt = none

/-- Unfolds the row list after an alert insert. -/
theorem createAlert_alerts (db : DB) (pid : Nat) (em : String) (t : Int) :
    (createAlert db pid em t).alerts = db.alerts ++
      [{ id := freshAlertId db, productId := pid, userEmail := em,
         targetPrice := t, isActive := true, triggeredAt := none }] := rfl

/-- Alert creation keeps ids pairwise distinct. -/
theorem createAlert_nodup (db : DB) (pid : Nat) (em : String) (t : Int)
    (h : alertIdsNodup db) : alertIdsNodup (createAlert db pid em t) := by
  unfold alertIdsNodup
  rw [createAlert_alerts, List.map_append]
  refine List.Nodup.append h (List.nodup_singleton _) ?_
  intro x hx hy
  rcases List.mem_singleton.mp hy with he
  rw [he] at hx
  exact freshAlertId_not_mem db hx

/-- Deactivation keeps the active-iff-untriggered invariant. -/
theorem deactivateAlert_inv (db : DB) (i n : Nat) (h : alertsInvariant db) :
    alertsInvariant (deactivateAlert db i n) := by
  intro y hy
  unfold deactivateAlert at hy
  rcases List.mem_map.mp hy with ⟨x, hx, hfx⟩
  by_cases he : x.id = i
  · rw [if_pos he] at hfx
    rw [← hfx]
    simp
  · rw [if_neg he] at hfx
    rw [← hfx]
    exact h x hx

/-- The evaluation loop keeps the active-iff-untriggered invariant. -/
theorem loop_inv (env : Env) (p : Int) (l : List Alert) (db : DB)
    (h : alertsInvariant db) : alertsInvariant (checkAlertsLoop env p l db).1 := by
  induction l generalizing db with
  | nil => exact h
  | cons a rest ih =>
    unfold checkAlertsLoop
    by_cases hf : p ≤ a.targetPrice
    · simp only [if_pos hf]
      by_cases hu : env.updateAlertFails a.id
      · simpa [hu] using h
      · simp only [hu, Bool.false_eq_true, if_neg, not_false_iff]
        exact ih _ (deactivateAlert_inv db a.id env.now h)
    · simp only [if_neg hf]
      exact ih _ h

/-- The evaluation loop keeps the id list unchanged. -/
theorem loop_ids (env : Env) (p : Int) (l : List Alert) (db : DB) :
    (checkAlertsLoop env p l db).1.alerts.map Alert.id = db.alerts.map Alert.id := by
  induction l generalizing db with
  | nil => rfl
  | cons a rest ih =>
    unfold checkAlertsLoop
    by_cases hf : p ≤ a.targetPrice
    · simp only [if_pos hf]
      by_cases hu : env.updateAlertFails a.id
      · simp [hu]
      · simp only [hu, Bool.false_eq_true, if_neg, not_false_iff]
        rw [ih, deactivateAlert_map_id]
    · simp only [if_neg hf]
      exact ih _

/-- Case analysis of the state an ingest leaves behind. -/
theorem ingest_state (env : Env) (db : DB) (pid : Nat) (p : Int) :
    (ingest env db pid p).1 = db ∨
    (ingest env db pid p).1 = updateProductPrice db pid p env.now ∨
    (ingest env db pid p).1 =
      (checkAlertsLoop env p (activeAlertsFor db pid)
        (appendHistory (updateProductPrice db pid p env.now) pid p env.now)).1 := by
  cases hf : findProduct db pid with
  | none => exact Or.inl (by simp only [ingest, hf])
  | some q =>
    by_cases hne : p ≠ q.currentPrice
    · exact Or.inr (Or.inr (by simp only [ingest, hf, if_pos hne]; rfl))
    · exact Or.inr (Or.inl (by simp only [ingest, hf, if_neg hne]))

/-- One operation keeps alert ids pairwise distinct. -/
theorem applyOp_nodup (env : Env) (db : DB) (op : Op) (h : alertIdsNodup db) :
    alertIdsNodup (applyOp env db op) := by
  cases op with
  | create pid em t => exact createAlert_nodup db pid em t h
  | check pid p =>
    show alertIdsNodup (ingest env db pid p).1
    rcases ingest_state env db pid p with h1 | h1 | h1 <;> rw [h1]
    · exact h
    · exact h
    · unfold alertIdsNodup
      rw [loop_ids]
      exact h
  | evalAlerts pid p =>
    show alertIdsNodup (checkAlertsLoop env p (activeAlertsFor db pid) db).1
    unfold alertIdsNodup
    rw [loop_ids]
    exact h

/-- One operation keeps the active-iff-untriggered invariant. -/
theorem applyOp_inv (env : Env) (db : DB) (op : Op) (h : alertsInvariant db) :
    alertsInvariant (applyOp env db op) := by
  cases op with
  | create pid em t =>
    intro y hy
    have hy2 : y ∈ (createAlert db pid em t).alerts := hy
    rw [createAlert_alerts] at hy2
    rcases List.mem_append.mp hy2 with h1 | h1
    · exact h y h1
    · rw [List.mem_singleton.mp h1]
      simp
  | check pid p =>
    show alertsInvariant (ingest env db pid p).1
    rcases ingest_state env db pid p with h1 | h1 | h1 <;> rw [h1]
    · exact h
    · exact h
    · exact loop_inv env p _ _ h
  | evalAlerts pid p =>
    show alertsInvariant (checkAlertsLoop env p (activeAlertsFor db pid) db).1
    exact loop_inv env p _ _ h

/-- One operation never touches an already-inactive alert row. -/
theorem applyOp_keeps_inactive (env : Env) (db : DB) (op : Op) (x : Alert)
    (hdb : alertIdsNodup db) (hx : x ∈ db.alerts) (hxa : x.isActive = false) :
    x ∈ (applyOp env db op).alerts := by
  cases op with
  | create pid em t =>
    show x ∈ (createAlert db pid em t).alerts
    rw [createAlert_alerts]
    exact List.mem_append_left _ hx
  | check pid p =>
    show x ∈ (ingest env db pid p).1.alerts
    rcases ingest_state env db pid p with h1 | h1 | h1 <;> rw [h1]
    · exact hx
    · exact hx
    · exact loop_preserves_inactive env p _ _
        (fun b hb => ⟨(mem_activeAlertsFor.mp hb).1, (mem_activeAlertsFor.mp hb).2.2⟩)
        (activeAlertsFor_ids_nodup pid hdb) hdb hx hxa
  | evalAlerts pid p =>
    show x ∈ (checkAlertsLoop env p (activeAlertsFor db pid) db).1.alerts
    exact loop_preserves_inactive env p _ _
      (fun b hb => ⟨(mem_activeAlertsFor.mp hb).1, (mem_activeAlertsFor.mp hb).2.2⟩)
      (activeAlertsFor_ids_nodup pid hdb) hdb hx hxa

/-- Operation sequences keep alert ids pairwise distinct. -/
theorem applyOps_nodup (env : Env) (ops : List Op) :
    ∀ db : DB, alertIdsNodup db → alertIdsNodup (applyOps env db ops) := by
  induction ops with
  | nil => exact fun db h => h
  | cons op rest ih => exact fun db h => ih _ (applyOp_nodup env db op h)

/-- Operation sequences keep the active-iff-untriggered invariant. -/
theorem applyOps_inv (env : Env) (ops : List Op) :
    ∀ db : DB, alertsInvariant db → alertsInvariant (applyOps env db ops) := by
  induction ops with
  | nil => exact fun db h => h
  | cons op rest ih => exact fun db h => ih _ (applyOp_inv env db op h)

/-- Operation sequences never touch an already-inactive alert row. -/
theorem applyOps_keeps_inactive (env : Env) (ops : List Op) :
    ∀ (db : DB) (x : Alert), alertIdsNodup db → x ∈ db.alerts → x.isActive = false →
      x ∈ (applyOps env db ops).alerts := by
  induction ops with
  | nil => exact fun db x _ hx _ => hx
  | cons op rest ih =>
    exact fun db x hdb hx hxa =>
      ih _ x (applyOp_nodup env db op hdb)
        (applyOp_keeps_inactive env db op x hdb hx hxa) hxa

/-- Any row changed by one evaluation is the fired form of a unique
original row that was active, owned by the product, and at or below
target. -/
theorem eval_changes_only_fired (env : Env) (p : Int) (pid : Nat) (db0 db : DB)
    (halerts : db0.alerts = db.alerts) (hdb : alertIdsNodup db) {y : Alert}
    (hy : y ∈ (checkAlertsLoop env p (activeAlertsFor db pid) db0).1.alerts) :
    ∃ x ∈ db.alerts, x.id = y.id ∧ (y = x ∨
      (x.isActive = true ∧ x.productId = pid ∧ p ≤ x.targetPrice ∧
        y = { x with isActive := false, triggeredAt := some env.now })) := by
  rcases loop_mem_cases env p _ db0 hy with ⟨x, hx, hid, hcase⟩
  rw [halerts] at hx
  refine ⟨x, hx, hid, ?_⟩
  rcases hcase with h1 | ⟨h1, b, hb, hbid, hbp⟩
  · exact Or.inl h1
  · have hbm := mem_activeAlertsFor.mp hb
    have hbx : b = x := List.inj_on_of_nodup_map hdb hbm.1 hx hbid
    rw [hbx] at hbp
    refine Or.inr ⟨?_, ?_, hbp, h1⟩
    · rw [← hbx]; exact hbm.2.2
    · rw [← hbx]; exact hbm.2.1

/-- C9: starting from a store whose alert ids are distinct and whose rows
are active exactly while untriggered, every alert is created active with a
null triggered timestamp; every operation sequence preserves distinct ids
and the active-iff-untriggered invariant; an inactive row is never touched
again (so it is never reactivated and its timestamp is frozen, making the
transition happen at most once); and a row changed by an evaluation or an
ingest is precisely an active row of the evaluated product that fired, in
its deactivated form. -/
theorem alert_lifecycle (db : DB)
    (hdb : alertIdsNodup db) (hinv : alertsInvariant db) :
    (∀ pid em t,
      ({ id := freshAlertId db, productId := pid, userEmail := em, targetPrice := t,
         isActive := true, triggeredAt := none } : Alert)
        ∈ (createAlert db pid em t).alerts) ∧
    (∀ env ops, alertIdsNodup (applyOps env db ops) ∧
      alertsInvariant (applyOps env db ops)) ∧
    (∀ env ops x, x ∈ db.alerts → x.isActive = false →
      x ∈ (applyOps env db ops).alerts) ∧
    (∀ env pid p y, y ∈ (applyOp env db (Op.evalAlerts pid p)).alerts →
      ∃ x ∈ db.alerts, x.id = y.id ∧ (y = x ∨
        (x.isActive = true ∧ x.productId = pid ∧ p ≤ x.targetPrice ∧
          y = { x with isActive := false, triggeredAt := some env.now }))) ∧
    (∀ env pid p y, y ∈ (applyOp env db (Op.check pid p)).alerts →
      ∃ x ∈ db.alerts, x.id = y.id ∧ (y = x ∨
        (x.isActive = true ∧ x.productId = pid ∧ p ≤ x.targetPrice ∧
          y = { x with isActive := false, triggeredAt := some env.now }))) := by
  refine ⟨?_, ?_, ?_, ?_, ?_⟩
  · intro pid em t
    rw [createAlert_alerts]
    exact List.mem_append_right _ (List.mem_singleton_self _)
  · intro env ops
    exact ⟨applyOps_nodup env ops db hdb, applyOps_inv env ops db hinv⟩
  · intro env ops x hx hxa
    exact applyOps_keeps_inactive env ops db x hdb hx hxa
  · intro env pid p y hy
    have hy2 : y ∈ (checkAlertsLoop env p (activeAlertsFor db pid) db).1.alerts := hy
    exact eval_changes_only_fired env p pid db db rfl hdb hy2
  · intro env pid p y hy
    have hy2 : y ∈ (ingest env db pid p).1.alerts := hy
    rcases ingest_state env db pid p with h1 | h1 | h1 <;> rw [h1] at hy2
    · exact ⟨y, hy2, rfl, Or.inl rfl⟩
    · exact ⟨y, hy2, rfl, Or.inl rfl⟩
    · exact eval_changes_only_fired env p pid
        (appendHistory (updateProductPrice db pid p env.now) pid p env.now) db rfl hdb hy2

/-- Witness for C9 at the concrete store: the fresh alert is created
active and untriggered, and a two-operation sequence keeps distinct ids
and the invariant. -/
theorem alert_lifecycle_witness :
    ((dbOne.alerts.map Alert.id).Nodup ∧
      (∀ a ∈ dbOne.alerts, a.isActive = true ↔ a.triggeredAt = none)) ∧
    ({ id := freshAlertId dbOne, productId := 1, userEmail := "new@example.com",
        targetPrice := 80, isActive := true, triggeredAt := none } : Alert)
      ∈ (createAlert dbOne 1 "new@example.com" 80).alerts ∧
    (alertIdsNodup (applyOps envOK dbOne [Op.check 1 90, Op.check 1 95]) ∧
      alertsInvariant (applyOps envOK dbOne [Op.check 1 90, Op.check 1 95])) :=
  ⟨⟨by decide, by decide⟩,
    (alert_lifecycle dbOne (by unfold alertIdsNodup; decide) (by unfold alertsInvariant; decide)).1 1 "new@example.com" 80,
    (alert_lifecycle dbOne (by unfold alertIdsNodup; decide) (by unfold alertsInvariant; decide)).2.1 envOK
      [Op.check 1 90, Op.check 1 95]⟩

end PriceHawk
